import Mathlib

/-!
Verification of `iyp/crawlers/google/gcp_ip_ranges.py`.

The crawler downloads Google Cloud's published IP-range JSON, flattens each
entry of `data['prefixes']` into per-address-family records, resolves each
record's region scope to an ISO country code through the static
`REGION_TO_COUNTRY` table, collects the distinct prefixes / service names /
country codes, batch get-or-creates the corresponding graph nodes, and then
builds CATEGORIZED (prefix → Tag) and COUNTRY (prefix → Country) links.

The embedding below mirrors `Crawler.run` step by step.  Python `dict`s with
optional keys become structures over `Option String`; Python `set`s become
duplicate-free lists built by membership-checked insertion; the graph sink
(`self.iyp`, which lives outside this file's source) is modelled from the
spec where a claim needs it.
-/

namespace GcpIpRanges

/-- The static GCP region → ISO country table (`REGION_TO_COUNTRY` in the
source), as an association list in the source's order. -/
def REGION_TO_COUNTRY : List (String × String) := [
  ("africa-south1", "ZA"),
  ("asia-east1", "TW"),
  ("asia-east2", "HK"),
  ("asia-northeast1", "JP"),
  ("asia-northeast2", "JP"),
  ("asia-northeast3", "KR"),
  ("asia-south1", "IN"),
  ("asia-south2", "IN"),
  ("asia-southeast1", "SG"),
  ("asia-southeast2", "ID"),
  ("australia-southeast1", "AU"),
  ("australia-southeast2", "AU"),
  ("europe-central2", "PL"),
  ("europe-north1", "FI"),
  ("europe-north2", "SE"),
  ("europe-southwest1", "ES"),
  ("europe-west1", "BE"),
  ("europe-west2", "GB"),
  ("europe-west3", "DE"),
  ("europe-west4", "NL"),
  ("europe-west6", "CH"),
  ("europe-west8", "IT"),
  ("europe-west9", "FR"),
  ("europe-west10", "DE"),
  ("europe-west12", "IT"),
  ("me-central1", "QA"),
  ("me-central2", "SA"),
  ("me-west1", "IL"),
  ("northamerica-northeast1", "CA"),
  ("northamerica-northeast2", "CA"),
  ("northamerica-south1", "MX"),
  ("us-central1", "US"),
  ("us-east1", "US"),
  ("us-east4", "US"),
  ("us-east5", "US"),
  ("us-south1", "US"),
  ("us-west1", "US"),
  ("us-west2", "US"),
  ("us-west3", "US"),
  ("us-west4", "US"),
  ("southamerica-east1", "BR"),
  ("southamerica-west1", "CL")]

/-- One element of the JSON array `data['prefixes']`: each key may be absent
(`none`).  Only the four keys the crawler reads are kept. -/
structure Entry where
  ipv4Prefix : Option String
  ipv6Prefix : Option String
  service : Option String
  scope : Option String
  deriving DecidableEq, Repr

/-- One flattened record appended to `items` in the parse loop.  The source
dict's keys are `prefix` (here `pfx`), `service`, `scope`, `af`. -/
structure Item where
  pfx : String
  service : String
  scope : String
  af : Nat
  deriving DecidableEq, Repr

/-- The records the parse loop appends for one JSON entry: a record with
`af = 4` when `ipv4Prefix` is present, then one with `af = 6` when
`ipv6Prefix` is present; `service` defaults to `"Google Cloud"` and `scope`
to `""` (lines 98–111 of the source). -/
def entryRecords (e : Entry) : List Item :=
  (match e.ipv4Prefix with
   | some p => [⟨p, e.service.getD "Google Cloud", e.scope.getD "", 4⟩]
   | none => []) ++
  (match e.ipv6Prefix with
   | some p => [⟨p, e.service.getD "Google Cloud", e.scope.getD "", 6⟩]
   | none => [])

/-- The full `items` list built by the parse loop over `data['prefixes']`. -/
def extractItems (entries : List Entry) : List Item :=
  entries.flatMap entryRecords

/-- `s.add x` on a Python set modelled as a duplicate-free list: append `x`
only when it is not already present. -/
def addUnique {α : Type} [DecidableEq α] (l : List α) (x : α) : List α :=
  if x ∈ l then l else l ++ [x]

/-- The `prefixes` set collected by the loop at lines 120–127. -/
def collectPrefixes (items : List Item) : List String :=
  items.foldl (fun acc i => addUnique acc i.pfx) []

/-- The `services` set collected by the same loop. -/
def collectServices (items : List Item) : List String :=
  items.foldl (fun acc i => addUnique acc i.service) []

/-- The `countries` set collected by the same loop: only scopes found in
`REGION_TO_COUNTRY` contribute, via the table's value. -/
def collectCountries (items : List Item) : List String :=
  items.foldl (fun acc i =>
    match REGION_TO_COUNTRY.lookup i.scope with
    | some cc => addUnique acc cc
    | none => acc) []

/-- The debug log line emitted for an unmatched non-empty scope. -/
def unknownScopeMsg (scope : String) : String :=
  "Unknown GCP region/scope: " ++ scope

/-- The debug messages emitted by the collection loop's `elif scope:`
branch (line 127): an unmatched scope is logged exactly when non-empty. -/
def unknownScopeLogs (items : List Item) : List String :=
  items.foldl (fun logs i =>
    match REGION_TO_COUNTRY.lookup i.scope with
    | some _ => logs
    | none => if i.scope ≠ "" then logs ++ [unknownScopeMsg i.scope] else logs) []

/-- A graph node id: the node's label together with its natural key. -/
abbrev NodeId := String × String

/-- Modelled from the spec: `self.iyp.batch_get_nodes_by_single_prop`
(the graph sink, not part of this repository's sources) — batch
get-or-create of nodes of one label keyed by one property, returning a map
from each submitted key to that node's id. -/
def batchGetNodes (label : String) (keys : List String) : String → Option NodeId :=
  fun k => if k ∈ keys then some (label, k) else none

/-- One relationship dict appended to `categorized_links` / `country_links`:
its `src_id` and `dst_id` (the `props` field is the single shared
`self.reference` object on every link and is omitted as a constant). -/
structure Link where
  src : NodeId
  dst : NodeId
  deriving DecidableEq, Repr

/-- One iteration of the relationship loop at lines 149–174: skip the record
when its prefix is missing from `prefix_id`; append a CATEGORIZED link when
the service is in `tag_id`; append a COUNTRY link when the scope resolves
through `REGION_TO_COUNTRY` to a code present in `country_id`. -/
def buildLinksStep (prefix_id tag_id country_id : String → Option NodeId)
    (acc : List Link × List Link) (item : Item) : List Link × List Link :=
  match prefix_id item.pfx with
  | none => acc
  | some p =>
    let acc1 : List Link × List Link :=
      match tag_id item.service with
      | some t => (acc.1 ++ [⟨p, t⟩], acc.2)
      | none => acc
    match REGION_TO_COUNTRY.lookup item.scope with
    | none => acc1
    | some cc =>
      match country_id cc with
      | none => acc1
      | some c => (acc1.1, acc1.2 ++ [⟨p, c⟩])

/-- The full relationship loop: `(categorized_links, country_links)`. -/
def buildLinks (items : List Item) (prefix_id tag_id country_id : String → Option NodeId) :
    List Link × List Link :=
  items.foldl (buildLinksStep prefix_id tag_id country_id) ([], [])

/-- The `creationTime` handling at lines 88–93, parametrised by the
timestamp parser (`datetime.fromisoformat` composed with the UTC
adjustment): returns the `reference_time_modification` value (unset when
absent or unparseable) and the warnings logged. -/
def processCreationTime (parse : String → Option String) (creationTime : Option String) :
    Option String × List String :=
  match creationTime with
  | none => (none, [])
  | some s =>
    match parse s with
    | some dt => (some dt, [])
    | none => (none, ["Could not parse creationTime: " ++ s])

/-- Everything one `run` submits to the sink: the three key sets passed to
batch node creation and the two link lists passed to `batch_add_links`. -/
structure RunOutput where
  prefixNodes : List String
  tagNodes : List String
  countryNodes : List String
  categorized : List Link
  country : List Link
  deriving DecidableEq, Repr

/-- `Crawler.run` from the parse loop onwards, with the sink's node maps
given by `batchGetNodes` (modelled from the spec, see there). -/
def runCrawler (entries : List Entry) : RunOutput :=
  let items := extractItems entries
  let prefixes := collectPrefixes items
  let services := collectServices items
  let countries := collectCountries items
  let prefix_id := batchGetNodes "GeoPrefix" prefixes
  let tag_id := batchGetNodes "Tag" services
  let country_id := batchGetNodes "Country" countries
  let links := buildLinks items prefix_id tag_id country_id
  ⟨prefixes, services, countries, links.1, links.2⟩

/-- Modelled from the spec: the graph store's visible state, a node set and
an edge set (edges tagged with their relationship type).  Both are kept
duplicate-free; the sink's get-or-create / MERGE semantics make re-adding an
existing node or edge a no-op. -/
structure GraphStore where
  nodes : List NodeId
  edges : List (String × Link)
  deriving DecidableEq, Repr

/-- Modelled from the spec: upsert a batch into the store — each element is
added only if not already present. -/
def upsertAll {α : Type} [DecidableEq α] (st : List α) (xs : List α) : List α :=
  xs.foldl addUnique st

/-- Apply one run's submissions to a store state: upsert the GeoPrefix, Tag
and Country nodes, then the CATEGORIZED and COUNTRY edges. -/
def applyOutput (out : RunOutput) (st : GraphStore) : GraphStore :=
  { nodes :=
      upsertAll
        (upsertAll
          (upsertAll st.nodes (out.prefixNodes.map (fun k => (("GeoPrefix", k) : NodeId))))
          (out.tagNodes.map (fun k => (("Tag", k) : NodeId))))
        (out.countryNodes.map (fun k => (("Country", k) : NodeId))),
    edges :=
      upsertAll
        (upsertAll st.edges (out.categorized.map (fun l => ("CATEGORIZED", l))))
        (out.country.map (fun l => ("COUNTRY", l))) }

/-- One whole run of the crawler against a store state. -/
def runOnStore (entries : List Entry) (st : GraphStore) : GraphStore :=
  applyOutput (runCrawler entries) st

/-! ### Basic facts about `addUnique`, `upsertAll` and folds -/

lemma mem_addUnique_of_mem {α : Type} [DecidableEq α] {l : List α} {a : α} (x : α)
    (h : a ∈ l) : a ∈ addUnique l x := by
  unfold addUnique
  split
  · exact h
  · exact List.mem_append_left _ h

lemma mem_addUnique_self {α : Type} [DecidableEq α] (l : List α) (x : α) :
    x ∈ addUnique l x := by
  unfold addUnique
  split
  · assumption
  · exact List.mem_append_right _ (List.mem_singleton_self x)

lemma addUnique_eq_of_mem {α : Type} [DecidableEq α] {l : List α} {x : α} (h : x ∈ l) :
    addUnique l x = l :=
  if_pos h

lemma mem_addUnique {α : Type} [DecidableEq α] {l : List α} {x a : α}
    (h : a ∈ addUnique l x) : a ∈ l ∨ a = x := by
  unfold addUnique at h
  split at h
  · exact Or.inl h
  · rcases List.mem_append.mp h with h1 | h1
    · exact Or.inl h1
    · exact Or.inr (List.mem_singleton.mp h1)

lemma nodup_addUnique {α : Type} [DecidableEq α] {l : List α} (h : l.Nodup) (x : α) :
    (addUnique l x).Nodup := by
  unfold addUnique
  split
  · exact h
  · next hx =>
    refine List.Nodup.append h (List.nodup_singleton x) ?_
    intro a ha hax
    rw [List.mem_singleton] at hax
    subst hax
    exact hx ha

lemma foldl_invariant {α β : Type} (P : α → Prop) (g : α → β → α)
    (hg : ∀ acc b, P acc → P (g acc b)) :
    ∀ (l : List β) (acc : α), P acc → P (l.foldl g acc) := by
  intro l
  induction l with
  | nil => intro acc h; exact h
  | cons b l ih =>
    intro acc h
    simp only [List.foldl_cons]
    exact ih (g acc b) (hg acc b h)

lemma subset_foldl {α β : Type} (g : List α → β → List α)
    (hg : ∀ acc b, acc ⊆ g acc b) :
    ∀ (l : List β) (acc : List α), acc ⊆ l.foldl g acc := by
  intro l
  induction l with
  | nil => intro acc a ha; exact ha
  | cons x l ih =>
    intro acc a ha
    simp only [List.foldl_cons]
    exact ih (g acc x) (hg acc x ha)

lemma mem_foldl_addUnique {α β : Type} [DecidableEq α] (f : β → α) :
    ∀ (l : List β) (acc : List α) (b : β), b ∈ l →
      f b ∈ l.foldl (fun a x => addUnique a (f x)) acc := by
  intro l
  induction l with
  | nil => intro acc b h; cases h
  | cons x l ih =>
    intro acc b h
    simp only [List.foldl_cons]
    rcases List.mem_cons.mp h with rfl | h2
    · refine subset_foldl _ ?_ l _ (mem_addUnique_self acc (f b))
      intro acc2 y a ha
      exact mem_addUnique_of_mem (f y) ha
    · exact ih _ b h2

lemma subset_upsertAll {α : Type} [DecidableEq α] (xs : List α) :
    ∀ st : List α, st ⊆ upsertAll st xs := by
  induction xs with
  | nil => intro st a ha; exact ha
  | cons x xs ih =>
    intro st a ha
    simp only [upsertAll, List.foldl_cons]
    exact ih (addUnique st x) (mem_addUnique_of_mem x ha)

lemma upsertAll_right_subset {α : Type} [DecidableEq α] (st xs : List α) :
    xs ⊆ upsertAll st xs := by
  induction xs generalizing st with
  | nil => intro a ha; cases ha
  | cons x xs ih =>
    intro a ha
    simp only [upsertAll, List.foldl_cons]
    rcases List.mem_cons.mp ha with rfl | h2
    · exact subset_upsertAll xs (addUnique st a) (mem_addUnique_self st a)
    · exact ih (addUnique st x) h2

lemma upsertAll_eq_of_subset {α : Type} [DecidableEq α] {xs : List α} :
    ∀ {st : List α}, xs ⊆ st → upsertAll st xs = st := by
  induction xs with
  | nil => intro st _; rfl
  | cons x xs ih =>
    intro st h
    have hx : x ∈ st := h (List.mem_cons_self x xs)
    have h2 : xs ⊆ st := fun a ha => h (List.mem_cons_of_mem x ha)
    simp only [upsertAll, List.foldl_cons]
    rw [addUnique_eq_of_mem hx]
    exact ih h2

/-! ### Facts about `List.lookup` on the region table -/

lemma lookup_mem {l : List (String × String)} {s c : String}
    (h : l.lookup s = some c) : (s, c) ∈ l := by
  induction l with
  | nil => simp [List.lookup] at h
  | cons p l ih =>
    obtain ⟨k, v⟩ := p
    rw [List.lookup_cons] at h
    by_cases hk : s = k
    · subst hk
      rw [beq_self_eq_true] at h
      injection h with h
      subst h
      exact List.mem_cons_self _ _
    · rw [beq_false_of_ne hk] at h
      exact List.mem_cons_of_mem _ (ih h)

lemma lookup_of_mem_nodup {l : List (String × String)}
    (hnd : (l.map Prod.fst).Nodup) {s c : String} (h : (s, c) ∈ l) :
    l.lookup s = some c := by
  induction l with
  | nil => cases h
  | cons p l ih =>
    obtain ⟨k, v⟩ := p
    simp only [List.map_cons, List.nodup_cons] at hnd
    rcases List.mem_cons.mp h with heq | hmem
    · injection heq with h1 h2
      subst h1
      subst h2
      exact List.lookup_cons_self
    · have hne : s ≠ k := by
        rintro rfl
        exact hnd.1 (List.mem_map.mpr ⟨(s, c), hmem, rfl⟩)
      rw [List.lookup_cons, beq_false_of_ne hne]
      exact ih hnd.2 hmem

/-! ### Facts about the relationship loop -/

lemma buildLinksStep_fst_length (prefix_id tag_id country_id : String → Option NodeId)
    (acc : List Link × List Link) (i : Item) :
    ((buildLinksStep prefix_id tag_id country_id acc i).1).length =
      acc.1.length +
        (if (prefix_id i.pfx).isSome && (tag_id i.service).isSome then 1 else 0) := by
  cases hp : prefix_id i.pfx with
  | none => simp [buildLinksStep, hp]
  | some p =>
    cases ht : tag_id i.service with
    | none =>
      cases hl : REGION_TO_COUNTRY.lookup i.scope with
      | none => simp [buildLinksStep, hp, ht, hl]
      | some cc =>
        cases hc : country_id cc with
        | none => simp [buildLinksStep, hp, ht, hl, hc]
        | some c => simp [buildLinksStep, hp, ht, hl, hc]
    | some t =>
      cases hl : REGION_TO_COUNTRY.lookup i.scope with
      | none => simp [buildLinksStep, hp, ht, hl]
      | some cc =>
        cases hc : country_id cc with
        | none => simp [buildLinksStep, hp, ht, hl, hc]
        | some c => simp [buildLinksStep, hp, ht, hl, hc]

lemma buildLinks_foldl_fst_length (prefix_id tag_id country_id : String → Option NodeId) :
    ∀ (items : List Item) (acc : List Link × List Link),
      ((items.foldl (buildLinksStep prefix_id tag_id country_id) acc).1).length =
        acc.1.length +
          items.countP (fun i => (prefix_id i.pfx).isSome && (tag_id i.service).isSome) := by
  intro items
  induction items with
  | nil => intro acc; simp
  | cons i items ih =>
    intro acc
    simp only [List.foldl_cons, List.countP_cons]
    rw [ih (buildLinksStep prefix_id tag_id country_id acc i),
      buildLinksStep_fst_length]
    by_cases h : ((prefix_id i.pfx).isSome && (tag_id i.service).isSome) = true
    · simp only [h, if_pos]
      omega
    · simp only [h, if_neg]
      omega

lemma buildLinks_fst_length (prefix_id tag_id country_id : String → Option NodeId)
    (items : List Item) :
    ((buildLinks items prefix_id tag_id country_id).1).length =
      items.countP (fun i => (prefix_id i.pfx).isSome && (tag_id i.service).isSome) := by
  have h := buildLinks_foldl_fst_length prefix_id tag_id country_id items ([], [])
  simpa [buildLinks] using h

lemma mem_collectPrefixes {items : List Item} {i : Item} (h : i ∈ items) :
    i.pfx ∈ collectPrefixes items :=
  mem_foldl_addUnique Item.pfx items [] i h

lemma upsertAll3_idem {α : Type} [DecidableEq α] (st xs ys zs : List α) :
    upsertAll (upsertAll (upsertAll (upsertAll (upsertAll (upsertAll st xs) ys) zs) xs) ys) zs =
      upsertAll (upsertAll (upsertAll st xs) ys) zs := by
  have h1 : xs ⊆ upsertAll (upsertAll (upsertAll st xs) ys) zs :=
    fun a ha => subset_upsertAll zs _ (subset_upsertAll ys _ (upsertAll_right_subset st xs ha))
  have h2 : ys ⊆ upsertAll (upsertAll (upsertAll st xs) ys) zs :=
    fun a ha => subset_upsertAll zs _ (upsertAll_right_subset _ ys ha)
  have h3 : zs ⊆ upsertAll (upsertAll (upsertAll st xs) ys) zs :=
    fun a ha => upsertAll_right_subset _ zs ha
  rw [upsertAll_eq_of_subset h1, upsertAll_eq_of_subset h2, upsertAll_eq_of_subset h3]

lemma upsertAll2_idem {α : Type} [DecidableEq α] (st xs ys : List α) :
    upsertAll (upsertAll (upsertAll (upsertAll st xs) ys) xs) ys =
      upsertAll (upsertAll st xs) ys := by
  have h1 : xs ⊆ upsertAll (upsertAll st xs) ys :=
    fun a ha => subset_upsertAll ys _ (upsertAll_right_subset st xs ha)
  have h2 : ys ⊆ upsertAll (upsertAll st xs) ys :=
    fun a ha => upsertAll_right_subset _ ys ha
  rw [upsertAll_eq_of_subset h1, upsertAll_eq_of_subset h2]

/-! ### The claims -/

/-- C1: For every run, the number of CATEGORIZED edges submitted to the sink
is at most the number of extracted records, and equals the count of extracted
records whose service name resolves to an existing Tag node in the `tag_id`
map returned by batch node creation.  The `prefix_id` map is the one the
modelled sink returns for the collected prefix set, so it covers every
extracted record's prefix; `tag_id` and `country_id` are arbitrary. -/
theorem categorized_edge_count (entries : List Entry)
    (tag_id country_id : String → Option NodeId) :
    ((buildLinks (extractItems entries)
        (batchGetNodes "GeoPrefix" (collectPrefixes (extractItems entries)))
        tag_id country_id).1).length ≤ (extractItems entries).length ∧
    ((buildLinks (extractItems entries)
        (batchGetNodes "GeoPrefix" (collectPrefixes (extractItems entries)))
        tag_id country_id).1).length =
      (extractItems entries).countP (fun i => (tag_id i.service).isSome) := by
  have hlen := buildLinks_fst_length
    (batchGetNodes "GeoPrefix" (collectPrefixes (extractItems entries))) tag_id country_id
    (extractItems entries)
  have hcong :
      (extractItems entries).countP
        (fun i =>
          (batchGetNodes "GeoPrefix" (collectPrefixes (extractItems entries)) i.pfx).isSome
            && (tag_id i.service).isSome) =
      (extractItems entries).countP (fun i => (tag_id i.service).isSome) := by
    apply List.countP_congr
    intro i hi
    have hmem : i.pfx ∈ collectPrefixes (extractItems entries) := mem_collectPrefixes hi
    simp [batchGetNodes, hmem]
  constructor
  · rw [hlen, hcong]
    exact List.countP_le_length _
  · rw [hlen, hcong]

/-- C2: a record whose prefix is absent from the `prefix_id` map contributes
neither a CATEGORIZED nor a COUNTRY link — dropping it from the item list
leaves both link lists unchanged — and link building is a total function, so
the run does not fail on such a record. -/
theorem missing_prefix_skips_record (prefix_id tag_id country_id : String → Option NodeId)
    (xs ys : List Item) (i : Item) (h : prefix_id i.pfx = none) :
    buildLinks (xs ++ i :: ys) prefix_id tag_id country_id =
      buildLinks (xs ++ ys) prefix_id tag_id country_id := by
  unfold buildLinks
  rw [List.foldl_append, List.foldl_append, List.foldl_cons]
  have hstep : buildLinksStep prefix_id tag_id country_id
      (xs.foldl (buildLinksStep prefix_id tag_id country_id) ([], [])) i =
      xs.foldl (buildLinksStep prefix_id tag_id country_id) ([], []) := by
    simp [buildLinksStep, h]
  rw [hstep]

/-- Witness for C2: a concrete record whose prefix the sink map does not
hold is skipped entirely. -/
theorem missing_prefix_skips_record_witness :
    buildLinks [⟨"10.0.0.0/8", "Google Cloud", "", 4⟩]
        (fun _ => none) (fun _ => none) (fun _ => none) =
      buildLinks [] (fun _ => none) (fun _ => none) (fun _ => none) :=
  missing_prefix_skips_record (fun _ => none) (fun _ => none) (fun _ => none)
    [] [] ⟨"10.0.0.0/8", "Google Cloud", "", 4⟩ rfl

/-- C3: a JSON entry with both an `ipv4Prefix` and an `ipv6Prefix` key
produces exactly two flattened records, with address family 4 carrying the
`ipv4Prefix` value and address family 6 carrying the `ipv6Prefix` value; an
entry with only one of the two keys produces exactly one record. -/
theorem entry_flattening (a b : String) (sv sc : Option String) :
    extractItems [⟨some a, some b, sv, sc⟩] =
      [⟨a, sv.getD "Google Cloud", sc.getD "", 4⟩,
       ⟨b, sv.getD "Google Cloud", sc.getD "", 6⟩] ∧
    extractItems [⟨some a, none, sv, sc⟩] =
      [⟨a, sv.getD "Google Cloud", sc.getD "", 4⟩] ∧
    extractItems [⟨none, some b, sv, sc⟩] =
      [⟨b, sv.getD "Google Cloud", sc.getD "", 6⟩] :=
  ⟨rfl, rfl, rfl⟩

/-- C4: for every scope that is a key of `REGION_TO_COUNTRY`, the lookup the
run performs resolves it to exactly the table's value; in particular
`us-west1` resolves to `US` and `europe-west9` to `FR`. -/
theorem region_resolution :
    (∀ s c : String, (s, c) ∈ REGION_TO_COUNTRY → REGION_TO_COUNTRY.lookup s = some c) ∧
    REGION_TO_COUNTRY.lookup "us-west1" = some "US" ∧
    REGION_TO_COUNTRY.lookup "europe-west9" = some "FR" := by
  refine ⟨?_, by decide, by decide⟩
  intro s c h
  exact lookup_of_mem_nodup (by decide) h

/-- Witness for C4 at a concrete table entry. -/
theorem region_resolution_witness :
    REGION_TO_COUNTRY.lookup "africa-south1" = some "ZA" :=
  region_resolution.1 "africa-south1" "ZA" (by decide)

/-- C5: a record whose scope is empty or not a key of `REGION_TO_COUNTRY`
gets no COUNTRY link (link building is total, so the run does not fail), and
when such a scope is non-empty the collection loop logs it at debug level. -/
theorem unknown_scope_handling (prefix_id tag_id country_id : String → Option NodeId)
    (i : Item) (h : REGION_TO_COUNTRY.lookup i.scope = none) :
    (buildLinks [i] prefix_id tag_id country_id).2 = [] ∧
    (i.scope ≠ "" → unknownScopeLogs [i] = [unknownScopeMsg i.scope]) := by
  constructor
  · cases hp : prefix_id i.pfx with
    | none => simp [buildLinks, buildLinksStep, hp]
    | some p =>
      cases ht : tag_id i.service with
      | none => simp [buildLinks, buildLinksStep, hp, ht, h]
      | some t => simp [buildLinks, buildLinksStep, hp, ht, h]
  · intro hne
    simp [unknownScopeLogs, h, hne]

/-- Witness for C5: a concrete record with an unknown non-empty scope. -/
theorem unknown_scope_handling_witness :
    (buildLinks [⟨"1.2.3.0/24", "Google Cloud", "moon-base1", 4⟩]
        (fun _ => none) (fun _ => none) (fun _ => none)).2 = [] ∧
    (("moon-base1" : String) ≠ "" →
      unknownScopeLogs [⟨"1.2.3.0/24", "Google Cloud", "moon-base1", 4⟩] =
        [unknownScopeMsg "moon-base1"]) :=
  unknown_scope_handling (fun _ => none) (fun _ => none) (fun _ => none)
    ⟨"1.2.3.0/24", "Google Cloud", "moon-base1", 4⟩ (by decide)

/-- C6: when `creationTime` is present but the timestamp parser rejects it,
the run recovers locally: a warning is logged and the
`reference_time_modification` field is left unset. -/
theorem creation_time_warning (parse : String → Option String) (s : String)
    (h : parse s = none) :
    processCreationTime parse (some s) =
      (none, ["Could not parse creationTime: " ++ s]) := by
  simp [processCreationTime, h]

/-- Witness for C6 at a parser that rejects everything. -/
theorem creation_time_warning_witness :
    processCreationTime (fun _ => none) (some "not-a-timestamp") =
      (none, ["Could not parse creationTime: " ++ "not-a-timestamp"]) :=
  creation_time_warning (fun _ => none) "not-a-timestamp" rfl

/-- C7: when the `service` key is absent every record emitted for the entry
has service name `"Google Cloud"`, and when the `scope` key is absent every
record emitted for the entry has the empty scope. -/
theorem default_service_and_scope (e : Entry) :
    (e.service = none → ∀ i ∈ extractItems [e], i.service = "Google Cloud") ∧
    (e.scope = none → ∀ i ∈ extractItems [e], i.scope = "") := by
  obtain ⟨v4, v6, sv, sc⟩ := e
  constructor
  · rintro rfl i hi
    cases v4 <;> cases v6 <;> simp [extractItems, entryRecords] at hi <;>
      rcases hi with rfl | rfl <;> rfl
  · rintro rfl i hi
    cases v4 <;> cases v6 <;> simp [extractItems, entryRecords] at hi <;>
      rcases hi with rfl | rfl <;> rfl

/-- Witness for C7 at a concrete entry with no `service` key. -/
theorem default_service_and_scope_witness :
    (⟨"8.8.8.0/24", "Google Cloud", "", 4⟩ : Item).service = "Google Cloud" :=
  (default_service_and_scope ⟨some "8.8.8.0/24", none, none, none⟩).1 rfl
    ⟨"8.8.8.0/24", "Google Cloud", "", 4⟩ (by decide)

/-- C8: on the one-entry input `8.8.8.0/24` / `Google Cloud` / `us-central1`
the run submits exactly one GeoPrefix key, one Tag key, one Country code
`US`, one CATEGORIZED link from the prefix node to the tag node, and one
COUNTRY link from the prefix node to the country node. -/
theorem end_to_end_example :
    runCrawler [⟨some "8.8.8.0/24", none, some "Google Cloud", some "us-central1"⟩] =
      ⟨["8.8.8.0/24"], ["Google Cloud"], ["US"],
       [⟨("GeoPrefix", "8.8.8.0/24"), ("Tag", "Google Cloud")⟩],
       [⟨("GeoPrefix", "8.8.8.0/24"), ("Country", "US")⟩]⟩ := by
  rfl

/-- C9: running the pipeline twice against identical input data leaves the
store exactly as one run does — the upsert into the graph store is
idempotent on the resulting node and edge sets. -/
theorem rerun_idempotent (entries : List Entry) (st : GraphStore) :
    runOnStore entries (runOnStore entries st) = runOnStore entries st := by
  obtain ⟨nodes, edges⟩ := st
  unfold runOnStore applyOutput
  dsimp only
  rw [GraphStore.mk.injEq]
  exact ⟨upsertAll3_idem _ _ _ _, upsertAll2_idem _ _ _⟩

/-- C10: the prefix, service and country collections passed to batch node
creation are duplicate-free, and every collected country code is in the
image of `REGION_TO_COUNTRY`. -/
theorem collected_sets_nodup (items : List Item) :
    (collectPrefixes items).Nodup ∧
    (collectServices items).Nodup ∧
    (collectCountries items).Nodup ∧
    ∀ c ∈ collectCountries items, c ∈ REGION_TO_COUNTRY.map Prod.snd := by
  refine ⟨?_, ?_, ?_, ?_⟩
  · exact foldl_invariant List.Nodup _ (fun acc i h => nodup_addUnique h i.pfx)
      items [] List.nodup_nil
  · exact foldl_invariant List.Nodup _ (fun acc i h => nodup_addUnique h i.service)
      items [] List.nodup_nil
  · refine foldl_invariant List.Nodup _ ?_ items [] List.nodup_nil
    intro acc i h
    cases hl : REGION_TO_COUNTRY.lookup i.scope with
    | none => simpa only [hl] using h
    | some cc => simpa only [hl] using nodup_addUnique h cc
  · refine foldl_invariant (fun l => ∀ c ∈ l, c ∈ REGION_TO_COUNTRY.map Prod.snd) _ ?_
      items [] (by simp)
    intro acc i h c hc
    cases hl : REGION_TO_COUNTRY.lookup i.scope with
    | none =>
      rw [hl] at hc
      exact h c hc
    | some cc =>
      rw [hl] at hc
      have hc' : c ∈ addUnique acc cc := hc
      rcases mem_addUnique hc' with h1 | rfl
      · exact h c h1
      · exact List.mem_map.mpr ⟨(i.scope, c), lookup_mem hl, rfl⟩

/-- Witness for C10: the country collected for `us-central1` is in the
table's image. -/
theorem collected_sets_nodup_witness :
    ("US" : String) ∈ REGION_TO_COUNTRY.map Prod.snd :=
  (collected_sets_nodup [⟨"8.8.8.0/24", "Google Cloud", "us-central1", 4⟩]).2.2.2
    "US" (by decide)

end GcpIpRanges
